import Mathlib

/-!
Shallow embedding of shift/systemd-status-leds (Go).

Sources embedded here:
- src/led/led.go                  : the Led pixel record and its setters;
- src/unnamed/part_002 (strip.go) : Strip, Init's startup frame, Strip.Add,
                                    Strip.UpdateLoop's per-tick frame fill;
- src/unnamed/part_003 (main.go)  : Config / Service, the addService watcher
                                    loop with its probe / subscription-set /
                                    event-switch logic.

Machine integers are modelled as Nat with explicit bounds where Go's
fixed-width behaviour matters (strconv.ParseUint with bitSize 32 clamps to
2^32 - 1 on range error; byte conversion is `% 256`).  Mutable heap state
(the shared *led.Led, the watcher's local flags, the SubscriptionSet
membership of one unit) is passed explicitly through a step function.
-/

namespace SystemdStatusLeds

/-! ## strconv.ParseUint(s, 16, 32), error discarded

`Strip.UpdateLoop` calls `rgba, _ := strconv.ParseUint(p.Colour, 16, 32)`.
With base 16 given explicitly, Go iterates over the bytes of the string:
a byte that is not a hex digit aborts with a syntax error returning 0; an
accumulated value exceeding 2^32 - 1 aborts with a range error returning
2^32 - 1; the empty string returns 0 with a syntax error.  The caller
drops the error and uses the returned value, so we model exactly that
returned value. -/

/-- Value of one byte of the string as a base-16 digit, as in Go's
strconv digit switch (letters g..z / G..Z fall to the `d >= base` syntax
error there; both paths return 0, so they collapse to `none` here).  Go
compares bytes numerically, modelled by `Char.toNat` comparisons; the
UTF-8 bytes of any non-ASCII character all lie outside the three digit
ranges, so iterating chars here and bytes there reach the same outcome. -/
def hexDigitVal (c : Char) : Option Nat :=
  if '0'.toNat ≤ c.toNat ∧ c.toNat ≤ '9'.toNat then some (c.toNat - '0'.toNat)
  else if 'a'.toNat ≤ c.toNat ∧ c.toNat ≤ 'f'.toNat then some (c.toNat - 'a'.toNat + 10)
  else if 'A'.toNat ≤ c.toNat ∧ c.toNat ≤ 'F'.toNat then some (c.toNat - 'A'.toNat + 10)
  else none

/-- maxVal for bitSize 32 in Go's ParseUint. -/
def maxVal32 : Nat := 2 ^ 32 - 1

/-- The digit loop of ParseUint: left to right; a non-digit returns the
syntax-error value 0; a step that would exceed maxVal32 returns the
range-error value maxVal32. -/
def parseUintLoop : List Char → Nat → Nat
  | [], n => n
  | c :: cs, n =>
    match hexDigitVal c with
    | none => 0
    | some d => if maxVal32 < 16 * n + d then maxVal32 else parseUintLoop cs (16 * n + d)

/-- The value returned by `strconv.ParseUint(s, 16, 32)` when the caller
ignores the error (empty string: syntax error, value 0). -/
def parseUintHex32 (s : String) : Nat :=
  parseUintLoop s.data 0

/-! ## led.Led (src/led/led.go)

Only the fields the monitored claims touch are carried (Red/Green/Blue/
White/Status are written by setters no caller in this repository uses).
The embedded sync.RWMutex has no functional content; note that
`SetColour` does not take it. -/

structure Led where
  colour : String
  number : Nat
  unit : String
deriving DecidableEq, Repr

/-- Led.SetColour: plain field assignment (no lock is taken in the Go
source despite the embedded RWMutex). -/
def Led.SetColour (l : Led) (c : String) : Led :=
  { l with colour := c }

/-! ## strip.Strip (src/unnamed/part_002) -/

structure Strip where
  count : Nat
  channels : Nat
  pixels : List Led
deriving DecidableEq, Repr

/-- Strip.Add: refuse when the pixel list already has Count entries,
otherwise append a fresh Led whose Number is the length after the append
(so numbers are assigned 1, 2, 3, ...).  The Go zero value of the Colour
field is the empty string. -/
def Strip.Add (s : Strip) (unit : String) : Option (Strip × Led) :=
  if s.pixels.length = s.count then none
  else
    let l : Led := { colour := "", number := s.pixels.length + 1, unit := unit }
    some ({ s with pixels := s.pixels ++ [l] }, l)

/-- The `Loading` pattern written by Init. -/
def Loading : List Nat := [60, 60, 60, 60]

/-- The startup frame Init writes: `bytes.Repeat(Loading, *strip.Count-1)`. -/
def initFrame (count : Nat) : List Nat :=
  (List.replicate (count - 1) Loading).flatten

/-- The four bytes UpdateLoop stores for one pixel:
big-endian bytes of the ParseUint result, via Go's `byte(...)` truncation. -/
def pixelBytes (colour : String) : List Nat :=
  let rgba := parseUintHex32 colour
  [rgba / 2 ^ 24 % 256, rgba / 2 ^ 16 % 256, rgba / 2 ^ 8 % 256, rgba % 256]

/-- Write a run of bytes into the buffer starting at `off`
(`List.set` ignores out-of-range indices where Go would panic; every
scenario proved below stays in range). -/
def writeBytes (buf : List Nat) (off : Nat) : List Nat → List Nat
  | [] => buf
  | b :: bs => writeBytes (buf.set off b) (off + 1) bs

/-- One pass of UpdateLoop's inner `for _, p := range s.Pixels` over a
given buffer: each pixel's four bytes go at offset `(p.Number - 1) * 4`. -/
def Strip.tick (s : Strip) (buf : List Nat) : List Nat :=
  s.pixels.foldl (fun b p => writeBytes b ((p.number - 1) * 4) (pixelBytes p.colour)) buf

/-- The buffer UpdateLoop allocates once before its loop:
`buf := make([]byte, 5*4)` — twenty zero bytes, a literal, not
Count × Channels. -/
def updateLoopBuf : List Nat := List.replicate (5 * 4) 0

/-- The frame UpdateLoop hands to Display.Write on its first tick. -/
def Strip.firstFrame (s : Strip) : List Nat :=
  s.tick updateLoopBuf

/-! ## main.go (src/unnamed/part_003): config and the addService watcher -/

/-- A configured service: name plus the per-unit `states_map` colour
override map (declared in Config, with a typo in its mapstructure tag;
addService never reads it). -/
structure Service where
  unit : String
  states : List (String × String)
deriving DecidableEq, Repr

/-- Go map lookup on a string-keyed colour map: a missing key yields the
zero value, the empty string (`C.Strip.colours["failed"]` on an absent
key is `""`). -/
def lookupColour (m : List (String × String)) (k : String) : String :=
  match m.find? (fun p => p.1 == k) with
  | some p => p.2
  | none => ""

/-- The six ActiveState names addService's switch recognizes. -/
def stateRecognized (state : String) : Bool :=
  state == "active" || state == "inactive" || state == "reloading" ||
  state == "failed" || state == "activating" || state == "deactivating"

/-- The body of addService's `switch event[svc].ActiveState`: every case
looks up only the global `C.Strip.colours` map (five of the six cases
first set a hard-coded colour that the very next SetColour overwrites);
the default case only logs, leaving the pixel untouched. -/
def applyState (colours : List (String × String)) (pixel : Led) (state : String) : Led :=
  if state == "active" then
    pixel.SetColour (lookupColour colours "active")
  else if state == "inactive" then
    (pixel.SetColour "44000005").SetColour (lookupColour colours "inactive")
  else if state == "reloading" then
    (pixel.SetColour "60606060").SetColour (lookupColour colours "reloading")
  else if state == "failed" then
    (pixel.SetColour "99000000").SetColour (lookupColour colours "failed")
  else if state == "activating" then
    (pixel.SetColour "00330010").SetColour (lookupColour colours "activating")
  else if state == "deactivating" then
    (pixel.SetColour "22000010").SetColour (lookupColour colours "deactivating")
  else
    pixel

/-- Outcome of `conn.GetUnitProperty(svc, "LoadState")`: an error, the
`not-found` sentinel, or a present unit. -/
inductive ProbeResult
  | err
  | notFound
  | found
deriving DecidableEq, Repr

/-- `invalid` as addService computes it from one probe. -/
def invalidOf : ProbeResult → Bool
  | .err => true
  | .notFound => true
  | .found => false

/-- What arrives on the select when the watcher waits on its channels:
a change event (carrying `event[svc]`, i.e. the unit's new ActiveState
when the broadcast mentions this unit, `none` for the nil entry), or an
error from subErrors. -/
inductive ChanInput
  | ev (entry : Option String)
  | busErr
deriving DecidableEq, Repr

/-- The environment's input to one iteration of addService's `for` loop:
the probe outcome, and — consumed only when the probe found the unit —
the channel input the select receives. -/
structure IterInput where
  probe : ProbeResult
  chan : ChanInput
deriving DecidableEq, Repr

/-- The watcher-visible mutable state: the local `activeSet` flag, this
unit's actual membership in the shared SubscriptionSet, and the shared
pixel the watcher holds a pointer to. -/
structure WatcherState where
  activeSet : Bool
  member : Bool
  pixel : Led
deriving DecidableEq, Repr

/-- The externally observable calls one iteration makes. -/
structure IterTrace where
  probed : Bool
  added : Bool
  removed : Bool
  wrote : Bool
deriving DecidableEq, Repr

/-- One iteration of addService's loop: always probe first; if the probe
errored or returned not-found, drop SubscriptionSet membership when held
and wait out the iteration; otherwise ensure membership, then block on
the select and run the event switch.  `wrote` records whether any
SetColour call happened (exactly the recognized states). -/
def stepWatcher (colours : List (String × String)) (st : WatcherState) (inp : IterInput) :
    WatcherState × IterTrace :=
  if invalidOf inp.probe then
    if st.activeSet then
      ({ st with activeSet := false, member := false },
       { probed := true, added := false, removed := true, wrote := false })
    else
      (st, { probed := true, added := false, removed := false, wrote := false })
  else
    let added := !st.activeSet
    let st1 : WatcherState := { st with activeSet := true, member := true }
    match inp.chan with
    | .busErr =>
      (st1, { probed := true, added := added, removed := false, wrote := false })
    | .ev none =>
      (st1, { probed := true, added := added, removed := false, wrote := false })
    | .ev (some state) =>
      ({ st1 with pixel := applyState colours st1.pixel state },
       { probed := true, added := added, removed := false, wrote := stateRecognized state })

/-- Run the watcher loop over a list of iteration inputs, collecting the
per-iteration traces. -/
def runWatcher (colours : List (String × String)) :
    WatcherState → List IterInput → WatcherState × List IterTrace
  | st, [] => (st, [])
  | st, i :: is =>
    let r := stepWatcher colours st i
    let rest := runWatcher colours r.1 is
    (rest.1, r.2 :: rest.2)

/-- The state a watcher starts from: `activeSet = false`, the unit not
yet added to the fresh SubscriptionSet, holding its assigned pixel. -/
def initWatcher (pixel : Led) : WatcherState :=
  { activeSet := false, member := false, pixel := pixel }

/-! ## Startup wiring from main: Strip.Add over the configured services -/

/-- Fold Strip.Add over configured unit names as main's `for _, service`
loop does (on an Add error main panics, so the fold stops there). -/
def addAll : Strip → List String → Strip
  | s, [] => s
  | s, u :: us =>
    match s.Add u with
    | some r => addAll r.1 us
    | none => s

/-- Comparator for claim C1 only, following the spec's resolution
algorithm word for word (per-unit override map first, then the global
default map, then the all-zero fallback), to be held against the code's
`applyState`. -/
def specColorResolver (overrides globalMap : List (String × String)) (state : String) : String :=
  match overrides.find? (fun p => p.1 == state) with
  | some p => p.2
  | none =>
    match globalMap.find? (fun p => p.1 == state) with
    | some p => p.2
    | none => "00000000"

/-- Plain base-16 value of a digit string (no width clamp), used to
state what ParseUint returns on all-hex input. -/
def hexValAcc (cs : List Char) (n : Nat) : Nat :=
  cs.foldl (fun m c => 16 * m + (hexDigitVal c).getD 0) n

/-! ## Supporting lemmas -/

theorem hexDigitVal_le15 {c : Char} {d : Nat} (h : hexDigitVal c = some d) : d ≤ 15 := by
  unfold hexDigitVal at h
  split at h
  · rename_i hr
    cases h
    exact le_trans (Nat.sub_le_sub_right hr.2 _) (by decide)
  · split at h
    · rename_i hr
      cases h
      exact le_trans (Nat.add_le_add_right (Nat.sub_le_sub_right hr.2 _) 10) (by decide)
    · split at h
      · rename_i hr
        cases h
        exact le_trans (Nat.add_le_add_right (Nat.sub_le_sub_right hr.2 _) 10) (by decide)
      · cases h

theorem writeBytes_length (bs : List Nat) : ∀ (buf : List Nat) (off : Nat),
    (writeBytes buf off bs).length = buf.length := by
  induction bs with
  | nil => intro buf off; rfl
  | cons b bs ih => intro buf off; simp [writeBytes, ih]

theorem tick_length (ps : List Led) : ∀ buf : List Nat,
    (ps.foldl (fun b p => writeBytes b ((p.number - 1) * 4) (pixelBytes p.colour)) buf).length
      = buf.length := by
  induction ps with
  | nil => intro buf; rfl
  | cons p ps ih => intro buf; simp [List.foldl_cons, ih, writeBytes_length]

theorem initFrame_length (count : Nat) : (initFrame count).length = 4 * (count - 1) := by
  unfold initFrame
  induction count - 1 with
  | zero => rfl
  | succ n ih => simp [List.replicate_succ, Loading] at ih ⊢; omega

theorem parseUintLoop_syntax (pre : List Char) :
    ∀ (c : Char) (post : List Char) (n : Nat),
      (∀ c' ∈ pre, (hexDigitVal c').isSome) → hexDigitVal c = none →
      16 ^ pre.length * (n + 1) ≤ 2 ^ 32 →
      parseUintLoop (pre ++ c :: post) n = 0 := by
  induction pre with
  | nil =>
    intro c post n _ hc _
    simp [parseUintLoop, hc]
  | cons d pre ih =>
    intro c post n hhex hc hbound
    obtain ⟨dv, hd⟩ := Option.isSome_iff_exists.mp (hhex d (by simp))
    have hdv : dv ≤ 15 := hexDigitVal_le15 hd
    have hpow : (16 : Nat) ≤ 16 ^ (d :: pre).length := by
      have : (d :: pre).length = pre.length + 1 := rfl
      rw [this, pow_succ]
      have : (1 : Nat) ≤ 16 ^ pre.length := Nat.one_le_pow _ _ (by norm_num)
      nlinarith
    have hstep : 16 * n + dv ≤ maxVal32 := by
      have h1 : 16 * (n + 1) ≤ 16 ^ (d :: pre).length * (n + 1) :=
        Nat.mul_le_mul_right _ hpow
      have h2 : 16 * (n + 1) ≤ 2 ^ 32 := le_trans h1 hbound
      simp only [maxVal32]; omega
    have hrec : 16 ^ pre.length * (16 * n + dv + 1) ≤ 2 ^ 32 := by
      have h1 : 16 * n + dv + 1 ≤ 16 * (n + 1) := by omega
      have h2 : 16 ^ pre.length * (16 * n + dv + 1) ≤ 16 ^ pre.length * (16 * (n + 1)) :=
        Nat.mul_le_mul_left _ h1
      have h3 : 16 ^ pre.length * (16 * (n + 1)) = 16 ^ (d :: pre).length * (n + 1) := by
        have : (d :: pre).length = pre.length + 1 := rfl
        rw [this, pow_succ]; ring
      rw [h3] at h2
      exact le_trans h2 hbound
    have hnotlt : ¬ maxVal32 < 16 * n + dv := by omega
    simp only [List.cons_append, parseUintLoop, hd, hnotlt, if_false]
    exact ih c post (16 * n + dv) (fun c' hc' => hhex c' (by simp [hc'])) hc hrec

theorem hexValAcc_ge (cs : List Char) : ∀ n : Nat, n ≤ hexValAcc cs n := by
  induction cs with
  | nil => intro n; exact le_refl n
  | cons c cs ih =>
    intro n
    have h1 : n ≤ 16 * n + (hexDigitVal c).getD 0 := by omega
    exact le_trans h1 (ih _)

theorem parseUintLoop_allHex (cs : List Char) :
    ∀ n : Nat, (∀ c ∈ cs, (hexDigitVal c).isSome) → n ≤ maxVal32 →
      parseUintLoop cs n = min (hexValAcc cs n) maxVal32 := by
  induction cs with
  | nil =>
    intro n _ hn
    simp [parseUintLoop, hexValAcc, Nat.min_eq_left hn]
  | cons c cs ih =>
    intro n hhex hn
    obtain ⟨dv, hd⟩ := Option.isSome_iff_exists.mp (hhex c (by simp))
    have hacc : hexValAcc (c :: cs) n = hexValAcc cs (16 * n + dv) := by
      simp [hexValAcc, hd]
    by_cases hlt : maxVal32 < 16 * n + dv
    · have h1 : maxVal32 < hexValAcc cs (16 * n + dv) :=
        lt_of_lt_of_le hlt (hexValAcc_ge cs _)
      simp only [parseUintLoop, hd, hlt, if_true, hacc]
      omega
    · push_neg at hlt
      simp only [parseUintLoop, hd, not_lt.mpr hlt, if_false, hacc]
      exact ih (16 * n + dv) (fun c' hc' => hhex c' (by simp [hc'])) hlt

/-! ## Claim C1 -/

/-- Global colour map of the C1 scenario. -/
def c1Global : List (String × String) := [("active", "00ff0000")]

/-- Configured service X of the C1 scenario, carrying the per-unit
states_map override the spec promises precedence to. -/
def c1ServiceX : Service := { unit := "X", states := [("active", "00ff5500")] }

/-- C1: the claim says resolving (X, active) with per-unit override
active=00ff5500 over global active=00ff0000 yields the override.  The
code's event switch (`applyState`, the body of addService) consults only
the global `C.Strip.colours` map — the Service.states field is declared
but never read — so X's pixel receives the global colour, not the
override the spec-side resolver (`specColorResolver`) produces.  The
full watcher step agrees. -/
theorem c1_per_unit_override_never_consulted :
    (applyState c1Global { colour := "", number := 1, unit := "X" } "active").colour = "00ff0000"
    ∧ (stepWatcher c1Global (initWatcher { colour := "", number := 1, unit := "X" })
        { probe := .found, chan := .ev (some "active") }).1.pixel.colour = "00ff0000"
    ∧ specColorResolver c1ServiceX.states c1Global "active" = "00ff5500"
    ∧ ("00ff0000" : String) ≠ "00ff5500" := by decide

/-! ## Claim C2 -/

/-- Global colour map of the C2 scenario: default failed=55002200. -/
def c2Colours : List (String × String) := [("failed", "55002200")]

/-- Strip after main added units A and B: A holds pixel Number 1,
B pixel Number 2, both with the zero-value Colour. -/
def c2Base : Strip := addAll { count := 2, channels := 4, pixels := [] } ["A", "B"]

/-- The broadcast change event of the C2 scenario as each watcher sees
it: `event[svc]` is the new state for A and nil for every other unit. -/
def c2Event (u : String) : Option String := if u == "A" then some "failed" else none

/-- The strip after each unit's watcher ran one loop iteration on the
broadcast (probe found the unit, then the select delivered the event). -/
def c2After : Strip :=
  { c2Base with
    pixels := c2Base.pixels.map (fun p =>
      (stepWatcher c2Colours (initWatcher p)
        { probe := .found, chan := .ev (c2Event p.unit) }).1.pixel) }

/-- C2: after the event A→failed and one refresh tick, the frame's first
four bytes are 0x55 0x00 0x22 0x00, and B's four bytes stay at the
zero initial/fallback encoding (the bytes an unset Colour produces). -/
theorem c2_end_to_end_first_tick :
    c2After.firstFrame.take 4 = [0x55, 0x00, 0x22, 0x00]
    ∧ (c2After.firstFrame.drop 4).take 4 = [0, 0, 0, 0]
    ∧ (c2After.firstFrame.drop 4).take 4 = pixelBytes "" := by decide

/-! ## Claim C4 -/

/-- C4: the claim says every frame has exactly N × C bytes.  The code
disagrees: UpdateLoop's frame is the literal `make([]byte, 5*4)` — 20
bytes for every configuration — and Init's startup frame repeats the
4-byte Loading pattern Count−1 times.  At the failing inputs length=3,
channels=4 the tick frame is 20 ≠ 12 bytes, and at the README's own
length=5, channels=4 the startup frame is 16 ≠ 20 bytes. -/
theorem c4_frame_length_mismatch :
    (∀ s : Strip, s.firstFrame.length = 20)
    ∧ (∀ count : Nat, (initFrame count).length = 4 * (count - 1))
    ∧ (Strip.firstFrame { count := 3, channels := 4, pixels := [] }).length ≠ 3 * 4
    ∧ (initFrame 5).length ≠ 5 * 4 := by
  refine ⟨fun s => ?_, initFrame_length, by decide, by decide⟩
  have h := tick_length s.pixels updateLoopBuf
  simpa [Strip.firstFrame, Strip.tick, updateLoopBuf] using h

/-! ## Claim C10 -/

/-- Strip of the C10 counterexample: one pixel whose Colour overflows
32 bits (nine hex digits, value 2^32). -/
def c10Strip : Strip :=
  { count := 1, channels := 4, pixels := [{ colour := "100000000", number := 1, unit := "A" }] }

/-- C10 counterexample: "100000000" is not a valid unsigned 32-bit hex
number, yet the refresh tick encodes the pixel as 0xFF 0xFF 0xFF 0xFF,
not four zero bytes — ParseUint returns maxVal, not 0, on range error. -/
theorem c10_counterexample_overflow_colour :
    c10Strip.firstFrame.take 4 = [255, 255, 255, 255]
    ∧ ([255, 255, 255, 255] : List Nat) ≠ [0, 0, 0, 0] := by decide

/-- C10 amended: parse errors are ignored, and the encoding splits by
error kind — the empty string, or a non-hex character among the first
nine with in-range leading digits, is a syntax error encoded as four
zero bytes; all-hex digits whose value exceeds 2^32 − 1 are a range
error encoded as four 0xFF bytes. -/
theorem c10_amended_parse_error_encoding :
    pixelBytes "" = [0, 0, 0, 0]
    ∧ (∀ (pre : List Char) (c : Char) (post : List Char),
        pre.length ≤ 8 → (∀ c' ∈ pre, (hexDigitVal c').isSome) → hexDigitVal c = none →
        pixelBytes (String.mk (pre ++ c :: post)) = [0, 0, 0, 0])
    ∧ (∀ s : String, (∀ c ∈ s.data, (hexDigitVal c).isSome) → maxVal32 < hexValAcc s.data 0 →
        pixelBytes s = [255, 255, 255, 255]) := by
  refine ⟨by decide, ?_, ?_⟩
  · intro pre c post hlen hhex hc
    have hpow : (16 : Nat) ^ pre.length ≤ 16 ^ 8 := Nat.pow_le_pow_right (by norm_num) hlen
    have hbound : 16 ^ pre.length * (0 + 1) ≤ 2 ^ 32 := by
      have h16 : (16 : Nat) ^ 8 = 2 ^ 32 := by norm_num
      simpa [h16] using hpow
    have h := parseUintLoop_syntax pre c post 0 hhex hc hbound
    simp [pixelBytes, parseUintHex32, h]
  · intro s hhex hover
    have h := parseUintLoop_allHex s.data 0 hhex (by simp [maxVal32])
    have hmax : parseUintHex32 s = maxVal32 := by
      simp [parseUintHex32, h, Nat.min_eq_right (le_of_lt hover)]
    simp only [pixelBytes, hmax]
    decide

/-- C10 amended, instantiated: the syntax clause at Colour "1z" and the
range clause at Colour "100000000". -/
theorem c10_amended_witness :
    pixelBytes (String.mk (['1'] ++ 'z' :: [])) = [0, 0, 0, 0]
    ∧ pixelBytes "100000000" = [255, 255, 255, 255] :=
  ⟨c10_amended_parse_error_encoding.2.1 ['1'] 'z' [] (by decide) (by decide) (by decide),
   c10_amended_parse_error_encoding.2.2 "100000000" (by decide) (by decide)⟩

/-! ## Step lemmas for the watcher loop -/

theorem stepWatcher_invalid (colours : List (String × String)) (st : WatcherState)
    (inp : IterInput) (h : invalidOf inp.probe = true) :
    stepWatcher colours st inp
      = if st.activeSet
        then ({ st with activeSet := false, member := false },
              { probed := true, added := false, removed := true, wrote := false })
        else (st, { probed := true, added := false, removed := false, wrote := false }) := by
  unfold stepWatcher
  rw [h]
  simp

theorem stepWatcher_found_busErr (colours : List (String × String)) (st : WatcherState) :
    stepWatcher colours st { probe := .found, chan := .busErr }
      = ({ st with activeSet := true, member := true },
         { probed := true, added := !st.activeSet, removed := false, wrote := false }) := rfl

theorem stepWatcher_found_ev_none (colours : List (String × String)) (st : WatcherState) :
    stepWatcher colours st { probe := .found, chan := .ev none }
      = ({ st with activeSet := true, member := true },
         { probed := true, added := !st.activeSet, removed := false, wrote := false }) := rfl

theorem stepWatcher_found_ev_some (colours : List (String × String)) (st : WatcherState)
    (state : String) :
    stepWatcher colours st { probe := .found, chan := .ev (some state) }
      = ({ activeSet := true, member := true, pixel := applyState colours st.pixel state },
         { probed := true, added := !st.activeSet, removed := false,
           wrote := stateRecognized state }) := rfl

theorem stepWatcher_probed (colours : List (String × String)) (st : WatcherState)
    (inp : IterInput) : (stepWatcher colours st inp).2.probed = true := by
  obtain ⟨probe, chan⟩ := inp
  cases probe
  case found =>
    rcases chan with e | _
    · rcases e with _ | state
      · rw [stepWatcher_found_ev_none]
      · rw [stepWatcher_found_ev_some]
    · rw [stepWatcher_found_busErr]
  case err =>
    rw [stepWatcher_invalid colours st { probe := .err, chan := chan } rfl]
    cases hst : st.activeSet <;> simp
  case notFound =>
    rw [stepWatcher_invalid colours st { probe := .notFound, chan := chan } rfl]
    cases hst : st.activeSet <;> simp

theorem stepWatcher_wrote_found (colours : List (String × String)) (st : WatcherState)
    (inp : IterInput) (h : (stepWatcher colours st inp).2.wrote = true) :
    inp.probe = .found := by
  obtain ⟨probe, chan⟩ := inp
  cases probe
  case found => rfl
  case err =>
    exfalso
    rw [stepWatcher_invalid colours st { probe := .err, chan := chan } rfl] at h
    cases hst : st.activeSet <;> simp [hst] at h
  case notFound =>
    exfalso
    rw [stepWatcher_invalid colours st { probe := .notFound, chan := chan } rfl] at h
    cases hst : st.activeSet <;> simp [hst] at h

/-! ## Claim C3 -/

/-- C3: an event whose active-state name is not among the six recognized
ones leaves the pixel exactly as it was — the switch's default case only
logs — the iteration performs no SetColour call, and the step (hence the
loop, which is total) carries on. -/
theorem c3_unrecognized_state_leaves_pixel (colours : List (String × String)) (px : Led)
    (state : String) (h : stateRecognized state = false) :
    applyState colours px state = px
    ∧ ∀ st : WatcherState,
        (stepWatcher colours st { probe := .found, chan := .ev (some state) }).1.pixel = st.pixel
        ∧ (stepWatcher colours st { probe := .found, chan := .ev (some state) }).2.wrote
            = false := by
  simp only [stateRecognized, Bool.or_eq_false_iff] at h
  obtain ⟨⟨⟨⟨⟨h1, h2⟩, h3⟩, h4⟩, h5⟩, h6⟩ := h
  have happ : ∀ p : Led, applyState colours p state = p := by
    intro p
    simp [applyState, h1, h2, h3, h4, h5, h6]
  refine ⟨happ px, fun st => ⟨?_, ?_⟩⟩
  · rw [stepWatcher_found_ev_some]
    exact happ st.pixel
  · rw [stepWatcher_found_ev_some]
    simp [stateRecognized, h1, h2, h3, h4, h5, h6]

/-- C3 instantiated at the spec's own example event `weird-state`. -/
theorem c3_witness :
    stateRecognized "weird-state" = false
    ∧ (applyState [] { colour := "00ff0000", number := 1, unit := "A" } "weird-state"
         = { colour := "00ff0000", number := 1, unit := "A" }
       ∧ ∀ st : WatcherState,
           (stepWatcher [] st { probe := .found, chan := .ev (some "weird-state") }).1.pixel
             = st.pixel
           ∧ (stepWatcher [] st { probe := .found, chan := .ev (some "weird-state") }).2.wrote
               = false) :=
  ⟨by decide,
   c3_unrecognized_state_leaves_pixel [] { colour := "00ff0000", number := 1, unit := "A" }
     "weird-state" (by decide)⟩

/-! ## Claim C5 -/

/-- Two loop iterations whose probe finds the unit; the broadcasts do
not mention it (`event[svc]` nil), so the watcher just keeps waiting. -/
def c5Inputs : List IterInput :=
  [{ probe := .found, chan := .ev none }, { probe := .found, chan := .ev none }]

/-- The C5 run: a fresh watcher for unit A over those two iterations. -/
def c5Run : WatcherState × List IterTrace :=
  runWatcher [] (initWatcher { colour := "", number := 1, unit := "A" }) c5Inputs

/-- C5 counterexample: the claim forbids any further load-state probe
once the first probe succeeded and while the watcher stays subscribed.
In this run the first iteration's probe succeeds and the watcher is
subscribed from then on (activeSet stays true), yet both iterations
perform a GetUnitProperty probe — the loop probes unconditionally at
the top of every pass. -/
theorem c5_counterexample_reprobe_while_tracking :
    (stepWatcher [] (initWatcher { colour := "", number := 1, unit := "A" })
      { probe := .found, chan := .ev none }).1.activeSet = true
    ∧ c5Run.1.activeSet = true
    ∧ c5Run.2.map IterTrace.probed = [true, true] := by decide

/-- C5 amended: the watcher performs the load-state existence probe on
every iteration of its loop, including every iteration spent Tracking —
one GetUnitProperty call per pass, never suppressed. -/
theorem c5_amended_probe_every_iteration (colours : List (String × String)) :
    ∀ (inputs : List IterInput) (st : WatcherState),
      (runWatcher colours st inputs).2.map IterTrace.probed
        = List.replicate inputs.length true := by
  intro inputs
  induction inputs with
  | nil => intro st; rfl
  | cons i is ih =>
    intro st
    simp [runWatcher, List.replicate_succ, stepWatcher_probed, ih]

/-! ## Claim C6 -/

/-- C6: when the probe errors or reports not-found, the iteration ends
with the unit out of the SubscriptionSet (Remove is called exactly when
it was believed present), performs no pixel write, and — for any state
and iteration whatsoever — a pixel write happens only in an iteration
whose probe found the unit, so no write occurs between a failed probe
and the next successful one. -/
theorem c6_invalid_probe_removes_and_silences (colours : List (String × String))
    (st : WatcherState) (inp : IterInput) (hinv : st.member = st.activeSet)
    (h : invalidOf inp.probe = true) :
    (stepWatcher colours st inp).1.member = false
    ∧ (stepWatcher colours st inp).2.wrote = false
    ∧ (stepWatcher colours st inp).2.removed = st.activeSet
    ∧ ∀ (st2 : WatcherState) (inp2 : IterInput),
        (stepWatcher colours st2 inp2).2.wrote = true → inp2.probe = .found := by
  rw [stepWatcher_invalid colours st inp h]
  refine ⟨?_, ?_, ?_, fun st2 inp2 hw => stepWatcher_wrote_found colours st2 inp2 hw⟩ <;>
    cases hst : st.activeSet <;> simp_all

/-- State of the C6 witness: a tracking watcher for unit A. -/
def c6St : WatcherState :=
  { activeSet := true, member := true, pixel := { colour := "", number := 1, unit := "A" } }

/-- Input of the C6 witness: the probe returns the not-found sentinel. -/
def c6Inp : IterInput := { probe := .notFound, chan := .ev none }

/-- C6 instantiated: a tracking watcher whose probe reports not-found. -/
theorem c6_witness :
    c6St.member = c6St.activeSet
    ∧ invalidOf c6Inp.probe = true
    ∧ ((stepWatcher [] c6St c6Inp).1.member = false
       ∧ (stepWatcher [] c6St c6Inp).2.wrote = false
       ∧ (stepWatcher [] c6St c6Inp).2.removed = c6St.activeSet
       ∧ ∀ (st2 : WatcherState) (inp2 : IterInput),
           (stepWatcher [] st2 inp2).2.wrote = true → inp2.probe = .found) :=
  ⟨rfl, rfl, c6_invalid_probe_removes_and_silences [] c6St c6Inp rfl rfl⟩

/-! ## Claim C7 -/

/-- C7: from any loop state satisfying the invariant `member =
activeSet` (the fresh watcher does), one iteration re-establishes it;
after the iteration the watcher believes the unit present exactly when
the probe succeeded, Add is called exactly on the believed-absent →
believed-present transition and Remove exactly on the converse one, so
neither membership call is ever duplicated. -/
theorem c7_membership_iff_believed_present (colours : List (String × String))
    (st : WatcherState) (inp : IterInput) (h : st.member = st.activeSet) :
    (stepWatcher colours st inp).1.member = (stepWatcher colours st inp).1.activeSet
    ∧ (stepWatcher colours st inp).1.activeSet = !invalidOf inp.probe
    ∧ (stepWatcher colours st inp).2.added = (!st.activeSet && !invalidOf inp.probe)
    ∧ (stepWatcher colours st inp).2.removed = (st.activeSet && invalidOf inp.probe)
    ∧ ∀ px : Led, (initWatcher px).member = (initWatcher px).activeSet := by
  obtain ⟨probe, chan⟩ := inp
  cases probe
  case found =>
    rcases chan with e | _
    · rcases e with _ | state
      · rw [stepWatcher_found_ev_none]
        simp [invalidOf, initWatcher]
      · rw [stepWatcher_found_ev_some]
        simp [invalidOf, initWatcher]
    · rw [stepWatcher_found_busErr]
      simp [invalidOf, initWatcher]
  case err =>
    rw [stepWatcher_invalid colours st { probe := .err, chan := chan } rfl]
    cases hst : st.activeSet <;> simp_all [invalidOf, initWatcher]
  case notFound =>
    rw [stepWatcher_invalid colours st { probe := .notFound, chan := chan } rfl]
    cases hst : st.activeSet <;> simp_all [invalidOf, initWatcher]

/-- State of the C7 witness: a watcher fresh from startup. -/
def c7St : WatcherState := initWatcher { colour := "", number := 1, unit := "A" }

/-- Input of the C7 witness: the first probe succeeds. -/
def c7Inp : IterInput := { probe := .found, chan := .busErr }

/-- C7 instantiated: a fresh watcher whose first probe succeeds (the
Add transition). -/
theorem c7_witness :
    c7St.member = c7St.activeSet
    ∧ ((stepWatcher [] c7St c7Inp).1.member = (stepWatcher [] c7St c7Inp).1.activeSet
       ∧ (stepWatcher [] c7St c7Inp).1.activeSet = !invalidOf c7Inp.probe
       ∧ (stepWatcher [] c7St c7Inp).2.added = (!c7St.activeSet && !invalidOf c7Inp.probe)
       ∧ (stepWatcher [] c7St c7Inp).2.removed = (c7St.activeSet && invalidOf c7Inp.probe)
       ∧ ∀ px : Led, (initWatcher px).member = (initWatcher px).activeSet) :=
  ⟨rfl, c7_membership_iff_believed_present [] c7St c7Inp rfl⟩

/-! ## Claim C8 -/

/-- C8: Strip.Add fails exactly when the strip already holds Count
pixels and then leaves the Pixels sequence untouched; on success it
appends one new Led numbered length+1, so from the empty startup state
the assigned numbers are always 1..n — each new number distinct from
every previously assigned one, and earlier entries (hence their
numbers) are never modified. -/
theorem c8_pixel_ownership_static :
    (∀ (s : Strip) (u : String), s.Add u = none ↔ s.pixels.length = s.count)
    ∧ (∀ (s s' : Strip) (u : String) (l : Led), s.Add u = some (s', l) →
        s'.pixels = s.pixels ++ [l]
        ∧ l.number = s.pixels.length + 1
        ∧ (s.pixels.map Led.number = List.range' 1 s.pixels.length →
            s'.pixels.map Led.number = List.range' 1 s'.pixels.length
            ∧ l.number ∉ s.pixels.map Led.number
            ∧ (s'.pixels.map Led.number).Nodup))
    ∧ (∀ c ch : Nat,
        (({ count := c, channels := ch, pixels := [] } : Strip).pixels.map Led.number)
          = List.range' 1 0) := by
  refine ⟨?_, ?_, fun c ch => rfl⟩
  · intro s u
    unfold Strip.Add
    by_cases hl : s.pixels.length = s.count <;> simp [hl]
  · intro s s' u l h
    unfold Strip.Add at h
    by_cases hl : s.pixels.length = s.count
    · simp [hl] at h
    · simp only [hl, if_false, Option.some.injEq, Prod.mk.injEq] at h
      obtain ⟨hs, hl'⟩ := h
      subst hs
      subst hl'
      refine ⟨rfl, rfl, fun hmap => ?_⟩
      have hlen : (s.pixels ++
          [({ colour := "", number := s.pixels.length + 1, unit := u } : Led)]).length
            = s.pixels.length + 1 := by simp
      constructor
      · simp only [List.map_append, hmap, List.map_cons, List.map_nil, hlen]
        rw [List.range'_1_concat]
        simp [Nat.add_comm]
      constructor
      · rw [hmap]
        simp only [List.mem_range'_1, not_and, not_lt]
        omega
      · simp only [List.map_append, hmap, List.map_cons, List.map_nil]
        have : List.range' 1 s.pixels.length ++ [s.pixels.length + 1]
            = List.range' 1 (s.pixels.length + 1) := by
          rw [List.range'_1_concat]
          simp [Nat.add_comm]
        rw [this]
        exact List.nodup_range' 1 (s.pixels.length + 1)

/-- The Led that Strip.Add assigns to unit A in the C8 witness. -/
def c8Led : Led := { colour := "", number := 1, unit := "A" }

/-- Empty two-pixel strip of the C8 witness. -/
def c8Strip0 : Strip := { count := 2, channels := 4, pixels := [] }

/-- The strip after the C8 witness's Add. -/
def c8Strip1 : Strip := { count := 2, channels := 4, pixels := [c8Led] }

/-- C8 instantiated: adding unit A to an empty two-pixel strip. -/
theorem c8_witness :
    c8Strip1.pixels.map Led.number = List.range' 1 c8Strip1.pixels.length
    ∧ c8Led.number ∉ c8Strip0.pixels.map Led.number
    ∧ (c8Strip1.pixels.map Led.number).Nodup :=
  (c8_pixel_ownership_static.2.1 c8Strip0 c8Strip1 "A" c8Led (by decide)).2.2 (by decide)

end SystemdStatusLeds
